import Mathlib

/-!
Verification of the LittleModPlayer (lmp) playback engine: a shallow
embedding of `littlemodplayer.c` / `littlemodplayer.h` (4-channel
SoundTracker/ProTracker module player) together with proofs about the
claims of its specification.

Conventions of the embedding:
* the module blob handed to `lmp_init` is a byte memory `Mem : Nat → Nat`;
  every `uint8_t` load goes through `byteAt`, which reduces modulo 256
  (the value a `uint8_t` object holds);
* pointers into the blob (instrument sample data, the sequence, the
  pattern region) are byte offsets (`Nat`);
* machine-integer wraparound is explicit: `% 4294967296` for `unsigned`
  and `uint32_t` arithmetic, `wrap16` for `uint16_t`, `toInt16` for
  stores into `int16_t`, `dec32` for `--x` on an `unsigned int`;
* signed C arithmetic is `Int`: `Int.tdiv` for C `/` (truncation toward
  zero), `Int.fdiv _ 4096` for `>> 12` on a signed int (gcc arithmetic
  shift, i.e. floor);
* fields of `mps_t` that `lmp_init` leaves unwritten in C (stack
  garbage that the guarded code never reads before writing) are
  modelled as zero.
-/

set_option maxRecDepth 8000

namespace LMP

/-- Byte memory: the in-memory module blob, `uint8_t` at each offset. -/
abbrev Mem := Nat → Nat

/-- A `uint8_t` load from the blob. -/
def byteAt (m : Mem) (a : Nat) : Nat := m a % 256

/-- `BE_to_host16` of an aligned `uint16_t` load at byte offset `a`:
the big-endian halfword stored at `a`. -/
def be16 (m : Mem) (a : Nat) : Nat := byteAt m a * 256 + byteAt m (a + 1)

/-- `host_to_LE32(current_frame[chan])` on a little-endian host: the
32-bit value assembled from bytes `a, a+1, a+2, a+3` (LE order). -/
def le32 (m : Mem) (a : Nat) : Nat :=
  byteAt m a + 256 * byteAt m (a + 1) + 65536 * byteAt m (a + 2) +
    16777216 * byteAt m (a + 3)

/-- Signed interpretation of a byte (an `int8_t` sample value). -/
def s8 (b : Nat) : Int := if b < 128 then (b : Int) else (b : Int) - 256

/-- Store into an `int16_t`: two's-complement wrap to `[-32768, 32767]`. -/
def toInt16 (x : Int) : Int := (x + 32768) % 65536 - 32768

/-- `uint16_t` wraparound of an integer value. -/
def wrap16 (x : Int) : Nat := (x % 65536).toNat

/-- `--x` on an `unsigned int` (wraps at zero). -/
def dec32 (x : Nat) : Nat := if x = 0 then 4294967295 else x - 1

/-- `LMP_SAMPLERATE` tunable, at its default value. -/
def LMP_SAMPLERATE : Nat := 44100

/-- `lmp_samps_from_tempo`: `(125*LMP_SAMPLERATE/50)/tempo`. -/
def lmp_samps_from_tempo (tempo : Nat) : Nat :=
  125 * LMP_SAMPLERATE / 50 / tempo

/-- `lmp_pi_from_pitch`: phase increment (20.12 fixed point) from a
note period; `((1<<12)*254*14000/LMP_SAMPLERATE)/pitch`. -/
def lmp_pi_from_pitch (pitch : Nat) : Nat :=
  (1 <<< 12) * 254 * 14000 / LMP_SAMPLERATE / pitch

/-- `mpsamp_t`: one instrument directory entry.  `sample` is the byte
offset of the sample data inside the module blob. -/
structure mpsamp where
  sample : Nat
  len : Nat
  repeat_pos : Nat
  repeat_len : Nat
  default_volume : Nat
  deriving DecidableEq, Repr

/-- The all-zero `mpsamp_t`, standing in for an uninitialised array
slot (never read on guarded paths). -/
def dfltSamp : mpsamp :=
  { sample := 0, len := 0, repeat_pos := 0, repeat_len := 0, default_volume := 0 }

/-- `mps->inst[i]`: C array indexing, with the unwritten-slot stand-in
out of range. -/
def instAt (l : List mpsamp) (i : Nat) : mpsamp := l.getD i dfltSamp

/-- `mpschan_t`: per-channel playback state. -/
structure mpschan where
  on_ : Bool
  vol : Nat
  inst : Nat
  looping : Nat
  pitch : Nat
  effect : Nat
  effect_param : Nat
  sample : Nat
  pos : Nat
  phaseinc : Nat
  len : Nat
  repeat_pos : Nat
  repeat_end : Nat
  deriving DecidableEq, Repr

/-- `mps_t`: whole-player state (the module blob itself is passed to
each function separately, mirroring the stored `mod_data` pointer). -/
structure mps where
  instruments : Nat
  sequence : Nat
  length : Nat
  patterns : Nat
  inst : List mpsamp
  pos : Nat
  pos_pattern : Nat
  speed : Nat
  tick_counter : Nat
  tempo : Nat
  thirtyone : Bool
  song_loop : Bool
  support_tempo : Bool
  cs : Fin 4 → mpschan
  sample_counter : Nat
  samples_per_tick : Nat

/-- Write channel `i` of the channel-state array. -/
def updCs (s : mps) (i : Fin 4) (c : mpschan) : mps :=
  { s with cs := fun j => if j = i then c else s.cs j }

/-- One instrument header read of `lmp_init`'s directory loop (entry
`i`, whose sample data starts at `last_sample`). -/
def lmp_read_inst (m : Mem) (instruments i last_sample : Nat) : mpsamp :=
  { sample := last_sample
    len := be16 m (instruments + i * 30 + 22) * 2 % 65536
    default_volume := 0x7f &&& be16 m (instruments + i * 30 + 24)
    repeat_pos := be16 m (instruments + i * 30 + 26) * 2 % 65536
    repeat_len := be16 m (instruments + i * 30 + 28) * 2 % 65536 }

/-- `lmp_init`'s instrument directory loop: entries `i, i+1, ...`
(`count` of them), threading the running sample-data offset. -/
def lmp_build_insts (m : Mem) (instruments : Nat) :
    Nat → Nat → Nat → List mpsamp
  | _, _, 0 => []
  | i, last_sample, count + 1 =>
    let s := lmp_read_inst m instruments i last_sample
    s :: lmp_build_insts m instruments (i + 1) (last_sample + s.len) count

/-- `lmp_init`'s scan of the 128-byte sequence for the maximum pattern
number. -/
def lmp_max_patt (m : Mem) (seq : Nat) : Nat :=
  (List.range 128).foldl
    (fun mx i => if mx < byteAt m (seq + i) then byteAt m (seq + i) else mx) 0

/-- The channel state `lmp_init` leaves behind: `on = 0`, `inst = 0`,
`vol = 0x40`, `effect = 0xff`; remaining fields are unwritten in C and
modelled as zero. -/
def initChan : mpschan :=
  { on_ := false, vol := 0x40, inst := 0, looping := 0, pitch := 0,
    effect := 0xff, effect_param := 0, sample := 0, pos := 0,
    phaseinc := 0, len := 0, repeat_pos := 0, repeat_end := 0 }

/-- The `!strncmp("M.K.", mod_base + 0x438, 4)` probe: true iff the
four magic bytes (`M`, `.`, `K`, `.`) sit at offset 0x438. -/
def lmp_is31 (m : Mem) : Bool :=
  decide (byteAt m 0x438 = 77 ∧ byteAt m 0x439 = 46 ∧
    byteAt m 0x43a = 75 ∧ byteAt m 0x43b = 46)

/-- `lmp_init`: parse the module header and set playback defaults.
Returns the populated state and the C return value (always 0). -/
def lmp_init (m : Mem) : mps × Int :=
  let thirtyone : Bool := lmp_is31 m
  let instruments := 0x14
  let length := if thirtyone then byteAt m 0x3b6 else byteAt m 0x1d6
  let sequence := if thirtyone then 0x3b8 else 0x1d8
  let patterns := if thirtyone then 0x43c else 0x258
  let max_patt := lmp_max_patt m sequence
  let samples_at := patterns + 4 * (256 * (max_patt + 1))
  let inst := lmp_build_insts m instruments 0 samples_at
    (if thirtyone then 31 else 15)
  ({ instruments := instruments, sequence := sequence, length := length,
     patterns := patterns, inst := inst, pos := 0, pos_pattern := 0,
     speed := 6, tick_counter := 0, tempo := 125,
     thirtyone := thirtyone, song_loop := true, support_tempo := true,
     cs := fun _ => initChan,
     sample_counter := lmp_samps_from_tempo 125,
     samples_per_tick := lmp_samps_from_tempo 125 }, 0)

/-- `lmp_set_option` (`LMP_OPT_LOOP = 0`, `LMP_OPT_SUPPORT_TEMPO = 1`). -/
def lmp_set_option (s : mps) (option val : Nat) : mps :=
  match option with
  | 0 => { s with song_loop := val != 0 }
  | 1 => { s with support_tempo := val != 0 }
  | _ => s

/-- `lmp_get_length`. -/
def lmp_get_length (s : mps) : Nat := s.length

/-- `lmp_set_pos`. -/
def lmp_set_pos (s : mps) (pos : Nat) : mps :=
  if pos < s.length then { s with pos := pos, pos_pattern := 0 } else s

/-- Note-cell field `Value` from the assembled 32-bit word. -/
def lmp_note_val (note : Nat) : Nat := note >>> 24

/-- Note-cell field `Instrument`: `((note >> 20) & 0xf) | (note & 0x10)`. -/
def lmp_note_inst (note : Nat) : Nat := ((note >>> 20) &&& 0xf) ||| (note &&& 0x10)

/-- Note-cell field `Frequency` (period):
`((note << 8) & 0xf00) | ((note >> 8) & 0xff)`. -/
def lmp_note_freq (note : Nat) : Nat :=
  ((note <<< 8) &&& 0xf00) ||| ((note >>> 8) &&& 0xff)

/-- Note-cell field `Command`: `(note >> 16) & 0xf`. -/
def lmp_note_command (note : Nat) : Nat := (note >>> 16) &&& 0xf

/-- The instrument-number decode applied to the four raw cell bytes
`b0 b1 b2 b3` as they are stored in the file (the 32-bit word read by
`lmp_tick` is their little-endian assembly). -/
def lmp_decode_inst (b0 b1 b2 b3 : Nat) : Nat :=
  lmp_note_inst (b0 + 256 * b1 + 65536 * b2 + 16777216 * b3)

/-- `lmp_process_command`: effect interpretation at a row tick. -/
def lmp_process_command (s : mps) (chan : Fin 4) (command val : Nat) : mps :=
  match command with
  | 1 => updCs s chan { s.cs chan with effect := 1, effect_param := val }
  | 2 => updCs s chan { s.cs chan with effect := 2, effect_param := val }
  | 10 =>
    let v : Int := if val < 128 then (val : Int) else (val : Int) - 256
    let vol : Int := ((s.cs chan).vol : Int) + v
    let vol : Int := if 0x40 < vol then 0x40 else vol
    let vol : Int := if vol < 0 then 0 else vol
    updCs s chan { s.cs chan with vol := vol.toNat }
  | 11 =>
    let s1 := { s with pos_pattern := 0, pos := val }
    if val = 0 then { s1 with pos := 4294967295 } else s1
  | 12 =>
    let v := if 0x40 < val then 0x40 else val
    updCs s chan { s.cs chan with vol := v }
  | 13 =>
    let p := ((val &&& 0xf0) >>> 4) * 10 + (val &&& 0xf)
    if 63 < p then s
    else { s with pos_pattern := p, pos := (s.pos + 1) % 4294967296 }
  | 15 =>
    let s1 :=
      if 0 < val ∧ val < 0x1f then { s with speed := val, tick_counter := val }
      else s
    if 0x20 ≤ val ∧ s1.support_tempo = true then
      { s1 with tempo := val, samples_per_tick := lmp_samps_from_tempo val }
    else s1
  | _ => s

/-- The inter-row (non-note) tick work on one channel: apply an armed
portamento (`effect` 1 slides the period down numerically and clamps
below at 113, `effect` 2 slides it up and clamps above at 856; the
`uint16_t` subtraction/addition wraps). -/
def lmp_inter_chan (c : mpschan) : mpschan :=
  if c.effect = 1 ∨ c.effect = 2 then
    let p :=
      if c.effect = 1 then
        let q := wrap16 ((c.pitch : Int) - (c.effect_param : Int))
        if q < 113 then 113 else q
      else
        let q := wrap16 ((c.pitch : Int) + (c.effect_param : Int))
        if 856 < q then 856 else q
    { c with pitch := p, phaseinc := lmp_pi_from_pitch p }
  else c

/-- One channel of `lmp_tick`'s row processing: decode the cell at
`frame + 4*chan`, reset the inter-note effect, start a note when the
period is non-zero and the instrument number is in range, then run the
effect command. -/
def lmp_tick_chan (m : Mem) (frame : Nat) (s : mps) (chan : Fin 4) : mps :=
  let note := le32 m (frame + 4 * chan.val)
  let val := lmp_note_val note
  let inst := lmp_note_inst note
  let freq := lmp_note_freq note
  let command := lmp_note_command note
  let c := { s.cs chan with effect := 0xff }
  let s1 := updCs s chan c
  let s2 :=
    if freq ≠ 0 ∧ inst ≤ (if s1.thirtyone then 31 else 15) then
      let c1 :=
        if inst ≠ 0 then
          { c with inst := inst - 1,
                   vol := (instAt s1.inst (inst - 1)).default_volume }
        else c
      let samp := instAt s1.inst c1.inst
      let looping := samp.repeat_len ≠ 2
      let c2 :=
        { c1 with on_ := true, sample := samp.sample, pos := 0,
                  len := samp.len <<< 12,
                  looping := if looping then 1 else 0,
                  repeat_pos := if looping then samp.repeat_pos <<< 12
                                else c1.repeat_pos,
                  repeat_end := if looping then
                                  (samp.repeat_pos + samp.repeat_len) <<< 12
                                else c1.repeat_end,
                  phaseinc := lmp_pi_from_pitch freq, pitch := freq }
      updCs s1 chan c2
    else s1
  lmp_process_command s2 chan command val

/-- The four channels, in processing order. -/
def chanList : List (Fin 4) := [0, 1, 2, 3]

/-- The state after the row-processing part of `lmp_tick` (everything
of the `tick_counter <= 1` path up to, but not including, the final
sequence-end check): reload `tick_counter`, locate the current row,
advance `pos_pattern`, process the four channel cells, and step to the
next pattern when the row counter ran past 63. -/
def lmp_tick_row_state (m : Mem) (s : mps) : mps :=
  let s0 := { s with tick_counter := s.speed }
  let current_pattern := byteAt m (s0.sequence + s0.pos)
  let frame := s0.patterns + 4 * (256 * current_pattern + 4 * s0.pos_pattern)
  let s1 := { s0 with pos_pattern := (s0.pos_pattern + 1) % 4294967296 }
  let s2 := chanList.foldl (fun acc ch => lmp_tick_chan m frame acc ch) s1
  if 63 < s2.pos_pattern then
    { s2 with pos := (s2.pos + 1) % 4294967296, pos_pattern := 0 }
  else s2

/-- `lmp_tick`: one sequencer tick.  Returns the new state and the
"done" flag (true only when the sequence ran off its end with looping
disabled). -/
def lmp_tick (m : Mem) (s : mps) : mps × Bool :=
  if 1 < s.tick_counter then
    ({ s with cs := fun j => lmp_inter_chan (s.cs j),
              tick_counter := s.tick_counter - 1 }, false)
  else
    if (lmp_tick_row_state m s).length ≤ (lmp_tick_row_state m s).pos then
      ({ lmp_tick_row_state m s with pos := 0 },
       !(lmp_tick_row_state m s).song_loop)
    else (lmp_tick_row_state m s, false)

/-- The DSP work of `lmp_render_samples` for one active channel:
linear interpolation, volume scaling, phase advance, loop handling.
Returns the updated channel and the channel's `int16_t` output. -/
def lmp_render_chan (m : Mem) (c : mpschan) : mpschan × Int :=
  let frac : Int := ((c.pos &&& 4095 : Nat) : Int)
  let nfrac : Int := 4096 - ((c.pos &&& 4095 : Nat) : Int)
  let c1 : Int := s8 (byteAt m (c.sample + (c.pos >>> 12))) * 0x100
  let c2 : Int :=
    if c.pos >>> 12 < c.len >>> 12 then
      s8 (byteAt m (c.sample + (c.pos >>> 12) + 1)) * 0x100
    else c1
  let cv : Int := (c1 * nfrac + c2 * frac).fdiv 4096
  let cv : Int := Int.tdiv (cv * (c.vol : Int)) 64
  let pos1 := (c.pos + c.phaseinc) % 4294967296
  let on1 := if c.looping < 2 ∧ c.len < pos1 ∧ c.looping = 0 then false else c.on_
  let looping1 :=
    if c.looping < 2 ∧ c.len < pos1 ∧ c.looping ≠ 0 then 2 else c.looping
  let pos2 := if looping1 = 2 ∧ c.repeat_end < pos1 then c.repeat_pos else pos1
  ({ c with pos := pos2, on_ := on1, looping := looping1 }, toInt16 cv)

/-- One channel of `lmp_render_samples`: silent channels emit 0 and
are left untouched. -/
def lmp_render_one (m : Mem) (s : mps) (chan : Fin 4) : mps × Int :=
  if (s.cs chan).on_ then
    let r := lmp_render_chan m (s.cs chan)
    (updCs s chan r.1, r.2)
  else (s, 0)

/-- `lmp_render_samples`: render all four channels for one output
frame (`csamp[0..3]`). -/
def lmp_render_samples (m : Mem) (s : mps) : mps × (Int × Int × Int × Int) :=
  let r0 := lmp_render_one m s 0
  let r1 := lmp_render_one m r0.1 1
  let r2 := lmp_render_one m r1.1 2
  let r3 := lmp_render_one m r2.1 3
  (r3.1, (r0.2, r1.2, r2.2, r3.2))

/-- `lmp_check_for_tick`: decrement the sample counter; on zero,
reload it and run the sequencer tick. -/
def lmp_check_for_tick (m : Mem) (s : mps) : mps × Bool :=
  let sc := dec32 s.sample_counter
  if sc = 0 then lmp_tick m { s with sample_counter := s.samples_per_tick }
  else ({ s with sample_counter := sc }, false)

/-- The loop body accumulation of `lmp_fill_buffer_mono`: produces the
emitted samples and the OR of all per-sample "done" results. -/
def fillMono (m : Mem) : mps → Nat → mps × List Int × Bool
  | s, 0 => (s, [], false)
  | s, n + 1 =>
    let r := lmp_render_samples m s
    let sum : Int := r.2.1 + r.2.2.1 + r.2.2.2.1 + r.2.2.2.2
    let samp := toInt16 (Int.tdiv sum 4)
    let t := lmp_check_for_tick m r.1
    let rest := fillMono m t.1 n
    (rest.1, samp :: rest.2.1, t.2 || rest.2.2)

/-- `lmp_fill_buffer_mono`: returns the final state, the emitted
samples and the C return value (`!done`: true while the song goes on). -/
def lmp_fill_buffer_mono (m : Mem) (s : mps) (n : Nat) : mps × List Int × Bool :=
  let r := fillMono m s n
  (r.1, r.2.1, !r.2.2)

/-- Loop of `lmp_fill_buffer_stereo_hard`: `for (i = 0; i < n; i++)`
emitting L then R and stepping `i` by two.  `fuel` bounds the
iteration count (`fuel = n` at the outer call is always enough). -/
def fillSH (m : Mem) : mps → Nat → Nat → Nat → mps × List Int × Bool
  | s, 0, _, _ => (s, [], false)
  | s, fuel + 1, i, n =>
    if i < n then
      let r := lmp_render_samples m s
      let left := toInt16 (Int.tdiv (r.2.1 + r.2.2.2.2) 2)
      let right := toInt16 (Int.tdiv (r.2.2.1 + r.2.2.2.1) 2)
      let t := lmp_check_for_tick m r.1
      let rest := fillSH m t.1 fuel (i + 2) n
      (rest.1, left :: right :: rest.2.1, t.2 || rest.2.2)
    else (s, [], false)

/-- `lmp_fill_buffer_stereo_hard`. -/
def lmp_fill_buffer_stereo_hard (m : Mem) (s : mps) (n : Nat) :
    mps × List Int × Bool :=
  let r := fillSH m s n 0 n
  (r.1, r.2.1, !r.2.2)

/-- Loop of `lmp_fill_buffer_stereo_soft` (same shape as the hard
variant, soft-panned mix formulas). -/
def fillSS (m : Mem) : mps → Nat → Nat → Nat → mps × List Int × Bool
  | s, 0, _, _ => (s, [], false)
  | s, fuel + 1, i, n =>
    if i < n then
      let r := lmp_render_samples m s
      let left := toInt16 (Int.tdiv ((r.2.1 + r.2.2.2.2) * 3 + (r.2.2.1 + r.2.2.2.1)) (4 * 2))
      let right := toInt16 (Int.tdiv ((r.2.2.1 + r.2.2.2.1) * 3 + (r.2.1 + r.2.2.2.2)) (4 * 2))
      let t := lmp_check_for_tick m r.1
      let rest := fillSS m t.1 fuel (i + 2) n
      (rest.1, left :: right :: rest.2.1, t.2 || rest.2.2)
    else (s, [], false)

/-- `lmp_fill_buffer_stereo_soft`. -/
def lmp_fill_buffer_stereo_soft (m : Mem) (s : mps) (n : Nat) :
    mps × List Int × Bool :=
  let r := fillSS m s n 0 n
  (r.1, r.2.1, !r.2.2)

/-- `lmp_mix_t`: the mix-mode enumeration of the public API. -/
inductive lmp_mix where
  | mono
  | stereo_soft
  | stereo_hard
  deriving DecidableEq, Repr

/-- `lmp_fill_buffer`: the public dispatcher over the mix mode. -/
def lmp_fill_buffer (m : Mem) (s : mps) (n : Nat) (mix : lmp_mix) :
    mps × List Int × Bool :=
  match mix with
  | .mono => lmp_fill_buffer_mono m s n
  | .stereo_hard => lmp_fill_buffer_stereo_hard m s n
  | .stereo_soft => lmp_fill_buffer_stereo_soft m s n

/-- A stream of `lmp_fill_buffer` calls (mode and sample count each),
threading the player state. -/
def lmp_run (m : Mem) : mps → List (lmp_mix × Nat) → mps
  | s, [] => s
  | s, (mode, n) :: rest => lmp_run m (lmp_fill_buffer m s n mode).1 rest

/-! ## Concrete test fixtures -/

/-- The all-zero memory: every byte reads as 0.  It also stands for a
module slice of length 0 (every read out of bounds, with 0 as the
stand-in for the garbage such a read would return). -/
def zeroMem : Mem := fun _ => 0

/-- Smallest blob size the reads of `lmp_init` always require: the
`M.K.` magic probe touches offsets 0x438..0x43B on every module, so a
faithful slice needs at least 0x43C bytes. -/
def LMP_INIT_REQUIRED : Nat := 0x43c

/-! ## C1 -/

/-- Claim C1 counterexample: a module slice of length 0 (shorter than
the 0x43C bytes the loader's own reads require) is still reported as
success: `lmp_init` returns 0 for it, not a `TruncatedModule` error.
No error path exists in `lmp_init` at all. -/
theorem C1_cex : (lmp_init zeroMem).2 = 0 ∧ 0 < LMP_INIT_REQUIRED := by
  exact ⟨rfl, by decide⟩

/-- Claim C1 (amended): `lmp_init` performs no truncation check and
returns 0 (success) for every module slice, truncated or not; there is
no `TruncatedModule` report. -/
theorem C1_amended (m : Mem) : (lmp_init m).2 = 0 := rfl

/-! ## C4 -/

/-- Claim C4: for every period in `[113, 856]` (at the default output
rate 44100), the phase increment computed by `lmp_pi_from_pitch`
equals `(4096 * 254 * 14000) / (44100 * period)` under truncating
integer division. -/
theorem C4_phase_inc (p : Nat) (h1 : 113 ≤ p) (h2 : p ≤ 856) :
    lmp_pi_from_pitch p = 4096 * 254 * 14000 / (44100 * p) := by
  unfold lmp_pi_from_pitch LMP_SAMPLERATE
  rw [Nat.div_div_eq_div_mul]
  norm_num [Nat.shiftLeft_eq]

/-- Witness for C4 at the concrete period 254. -/
theorem C4_phase_inc_w :
    (113 ≤ 254 ∧ 254 ≤ 856) ∧
      lmp_pi_from_pitch 254 = 4096 * 254 * 14000 / (44100 * 254) :=
  ⟨by decide, C4_phase_inc 254 (by decide) (by decide)⟩

/-! ## C7 -/

/-- Claim C7 counterexample: effect command 15 with parameter
`0x1f` (31) does not set `speed` (the code requires `val < 0x1f`, so
31 falls in neither the speed nor the tempo branch): starting from the
freshly initialised state (speed 6), the speed is still 6 afterwards. -/
theorem C7_cex :
    (lmp_process_command (lmp_init zeroMem).1 0 15 0x1f).speed = 6 ∧
      (6 : Nat) ≠ 0x1f := by
  exact ⟨rfl, by decide⟩

/-- Claim C7 (amended): effect 15 sets `speed := param` (and reloads
`tick_counter`) only for `0 < param < 0x1f`; `param = 0x1f` is ignored
entirely; `param ≥ 0x20` with `support_tempo` enabled sets
`tempo := param` and recomputes `samples_per_tick = (125*44100/50)/param`. -/
theorem C7_amended (s : mps) (chan : Fin 4) (val : Nat) :
    (0 < val → val < 0x1f →
      (lmp_process_command s chan 15 val).speed = val ∧
        (lmp_process_command s chan 15 val).tick_counter = val) ∧
    (val = 0x1f → lmp_process_command s chan 15 val = s) ∧
    (0x20 ≤ val → s.support_tempo = true →
      (lmp_process_command s chan 15 val).tempo = val ∧
        (lmp_process_command s chan 15 val).samples_per_tick =
          125 * 44100 / 50 / val) := by
  refine ⟨fun hl hu => ?_, fun he => ?_, fun hge hst => ?_⟩
  · dsimp only [lmp_process_command]
    rw [if_neg (fun h => absurd h.1 (by omega)), if_pos ⟨hl, hu⟩]
    exact ⟨rfl, rfl⟩
  · subst he
    dsimp only [lmp_process_command]
    rw [if_neg (fun h : _ ∧ _ < 31 => absurd h.2 (by omega)),
      if_neg (fun h : 32 ≤ _ ∧ _ => absurd h.1 (by omega))]
  · dsimp only [lmp_process_command]
    rw [if_neg (fun h : _ ∧ _ < 31 => absurd h.2 (by omega)), if_pos ⟨hge, hst⟩]
    exact ⟨rfl, rfl⟩

/-- Witness for C7 (amended), exercising all three cases concretely:
param 5 sets speed, param 0x1f leaves the state untouched, param 0x7d
sets tempo. -/
theorem C7_amended_w :
    (lmp_process_command (lmp_init zeroMem).1 0 15 5).speed = 5 ∧
    lmp_process_command (lmp_init zeroMem).1 0 15 0x1f = (lmp_init zeroMem).1 ∧
    (lmp_process_command (lmp_init zeroMem).1 0 15 0x7d).tempo = 0x7d :=
  ⟨((C7_amended (lmp_init zeroMem).1 0 5).1 (by decide) (by decide)).1,
   (C7_amended (lmp_init zeroMem).1 0 0x1f).2.1 rfl,
   ((C7_amended (lmp_init zeroMem).1 0 0x7d).2.2 (by decide) (by decide)).1⟩

/-! ## C8 -/

/-- Claim C8 counterexample: for the cell bytes `b0 = 0x20, b1 = b2 =
b3 = 0` the decoder yields 0, while the claimed formula
`(b0 & 0xF0) | (b2 >> 4)` yields 0x20: the code masks only bit 4 of
`b0`, not its whole upper nibble. -/
theorem C8_cex :
    lmp_decode_inst 0x20 0 0 0 = 0 ∧ ((0x20 &&& 0xF0) ||| (0 >>> 4) : Nat) = 0x20 := by
  decide

/-- Claim C8 (amended): for every 4-byte note cell `b0 b1 b2 b3`, the
decoded instrument number equals `(b0 & 0x10) | (b2 >> 4)` — only bit
4 of `b0` (not the whole upper nibble) enters the result.  This
coincides with `(b0 & 0xF0) | (b2 >> 4)` exactly when bits 5..7 of
`b0` are clear, as they are in every real MOD (instrument ≤ 31). -/
theorem C8_amended (b0 b1 b2 b3 : Nat)
    (h0 : b0 < 256) (h1 : b1 < 256) (h2 : b2 < 256) (h3 : b3 < 256) :
    lmp_decode_inst b0 b1 b2 b3 = (b0 &&& 0x10) ||| (b2 >>> 4) := by
  unfold lmp_decode_inst lmp_note_inst
  have e1 : ((b0 + 256 * b1 + 65536 * b2 + 16777216 * b3) >>> 20) &&& 0xf
      = b2 >>> 4 := by
    rw [Nat.shiftRight_eq_div_pow, Nat.shiftRight_eq_div_pow,
      show (0xf : Nat) = 2 ^ 4 - 1 from rfl, Nat.and_pow_two_sub_one_eq_mod,
      show (2 : Nat) ^ 20 = 1048576 from rfl,
      show (2 : Nat) ^ 4 = 16 from rfl]
    omega
  have e2 : (b0 + 256 * b1 + 65536 * b2 + 16777216 * b3) &&& 0x10
      = b0 &&& 0x10 := by
    rw [show (0x10 : Nat) = 2 ^ 4 from rfl, Nat.and_two_pow, Nat.and_two_pow]
    have e3 : (b0 + 256 * b1 + 65536 * b2 + 16777216 * b3).testBit 4
        = b0.testBit 4 := by
      rw [Nat.testBit_to_div_mod, Nat.testBit_to_div_mod,
        show (2 : Nat) ^ 4 = 16 from rfl]
      have : (b0 + 256 * b1 + 65536 * b2 + 16777216 * b3) / 16 % 2
          = b0 / 16 % 2 := by omega
      rw [this]
    rw [e3]
  rw [e1, e2, Nat.lor_comm]

/-- Witness for C8 (amended) at the concrete cell
`b0 = 0x32, b1 = 1, b2 = 0xAB, b3 = 7`. -/
theorem C8_amended_w :
    lmp_decode_inst 0x32 1 0xAB 7 = ((0x32 &&& 0x10) ||| (0xAB >>> 4) : Nat) :=
  C8_amended 0x32 1 0xAB 7 (by decide) (by decide) (by decide) (by decide)

/-- Arithmetic of the `uint16_t` subtraction wrap: for in-range
operands, `wrap16 (p - q)` is `p - q` when `q ≤ p` and
`p - q + 65536` otherwise. -/
theorem wrap16_sub (p q : Nat) (hp : p < 65536) (hq : q < 65536) :
    wrap16 ((p : Int) - (q : Int)) = if q ≤ p then p - q else p + 65536 - q := by
  unfold wrap16
  split_ifs with h
  · rw [Int.emod_eq_of_lt (by omega) (by omega)]
    omega
  · have e : ((p : Int) - q) % 65536 = (p : Int) - q + 65536 := by
      have e0 := Int.add_mul_emod_self_left ((p : Int) - (q : Int)) 65536 1
      rw [show ((p : Int) - q + 65536 * 1) = (p : Int) - q + 65536 by ring] at e0
      rw [← e0, Int.emod_eq_of_lt (by omega) (by omega)]
    rw [e]
    omega

/-! ## C6 -/

/-- A channel with an armed `PortaUp` (effect 1) whose parameter
exceeds the pitch: exercises the `uint16_t` wraparound of
`pitch -= effect_param`. -/
def c6chan : mpschan :=
  { initChan with effect := 1, effect_param := 200, pitch := 113 }

/-- A state in mid-row (`tick_counter = 3`) whose channel 0 is
`c6chan`. -/
def c6s : mps :=
  { (lmp_init zeroMem).1 with
      tick_counter := 3,
      cs := fun j => if j = 0 then c6chan else initChan }

/-- Claim C6 counterexample: on an inter-row tick with `PortaUp`
parameter 200 and old pitch 113, the code leaves pitch 65449 (the
`uint16_t` subtraction wrapped and escaped the 113 clamp), not
`max(113 - 200, 113) = 113` as the claim states for every old pitch
and parameter. -/
theorem C6_cex :
    ((lmp_tick zeroMem c6s).1.cs 0).pitch = 65449 ∧
      max ((113 : Int) - 200) 113 = 113 ∧ (65449 : Nat) ≠ 113 := by
  decide

/-- Claim C6 (amended): on an inter-row tick, a channel with an armed
`PortaUp` (effect 1) gets pitch `max(pitch - param, 113)` whenever
`param ≤ pitch`; when `param > pitch` the `uint16_t` subtraction wraps
to `pitch - param + 65536`, which escapes the lower clamp. -/
theorem C6_amended (m : Mem) (s : mps) (chan : Fin 4)
    (ht : 1 < s.tick_counter) (he : (s.cs chan).effect = 1)
    (hp : (s.cs chan).pitch < 65536) (hq : (s.cs chan).effect_param < 256) :
    ((lmp_tick m s).1.cs chan).pitch =
      if (s.cs chan).effect_param ≤ (s.cs chan).pitch then
        max ((s.cs chan).pitch - (s.cs chan).effect_param) 113
      else (s.cs chan).pitch + 65536 - (s.cs chan).effect_param := by
  unfold lmp_tick
  rw [if_pos ht]
  show (lmp_inter_chan (s.cs chan)).pitch = _
  unfold lmp_inter_chan
  rw [if_pos (Or.inl he)]
  dsimp only
  rw [if_pos he, wrap16_sub _ _ hp (by omega)]
  simp only [Nat.max_def]
  split_ifs <;> omega

/-- A channel carrying an in-range `PortaUp` (pitch 300, param 0x10). -/
def c6chanW : mpschan :=
  { initChan with effect := 1, effect_param := 0x10, pitch := 300 }

/-- A mid-row state whose channel 0 carries an in-range `PortaUp`. -/
def c6sW : mps :=
  { (lmp_init zeroMem).1 with
      tick_counter := 3,
      cs := fun j => if j = 0 then c6chanW else initChan }

/-- Witness for C6 (amended) on a concrete in-range slide:
pitch 300, parameter 0x10 gives 284. -/
theorem C6_amended_w :
    ((lmp_tick zeroMem c6sW).1.cs 0).pitch =
      if (0x10 : Nat) ≤ 300 then max (300 - 0x10) 113 else 300 + 65536 - 0x10 :=
  C6_amended zeroMem c6sW 0 (by decide) (by decide) (by decide) (by decide)

/-! ## C5 -/

/-- A voice sitting between the last two fixed-point positions of a
256-byte sample (`ip = 255`, fractional part 2048, `len >> 12 = 256`). -/
def c5chan : mpschan :=
  { initChan with
      on_ := true, vol := 64, pos := 255 * 4096 + 2048, len := 256 * 4096 }

/-- A module blob whose byte at offset 256 (one past the 256-byte
sample starting at offset 0) is nonzero. -/
def c5mem2 : Mem := fun a => if a = 256 then 100 else 0

/-- Claim C5 counterexample: with `ip = 255` and `len >> 12 = 256` the
claimed guard `ip + 1 < len >> 12` is false (so per the claim `c2 = c1`
and no second sample is fetched), yet the rendered output depends on
the byte at sample index 256 = `len >> 12` — i.e. the code (whose
guard is `ip < len >> 12`) does read one byte past the final sample
byte. -/
theorem C5_cex :
    ¬(c5chan.pos >>> 12 + 1 < c5chan.len >>> 12) ∧
      (lmp_render_chan zeroMem c5chan).2 ≠ (lmp_render_chan c5mem2 c5chan).2 := by
  decide

/-- Claim C5 (amended): the second interpolation sample is fetched
from `sample[ip+1]` exactly when `ip < (len_fp >> 12)` (else
`c2 = c1`), so rendering a voice whose integer position does not
exceed `len_fp >> 12` reads sample indices at most `len_fp >> 12` —
one past the last valid index, but never beyond: two blobs agreeing on
the bytes up to and including index `len_fp >> 12` render identically. -/
theorem C5_amended (m1 m2 : Mem) (c : mpschan)
    (hip : c.pos >>> 12 ≤ c.len >>> 12)
    (hagree : ∀ j, j ≤ c.len >>> 12 →
      byteAt m1 (c.sample + j) = byteAt m2 (c.sample + j)) :
    lmp_render_chan m1 c = lmp_render_chan m2 c := by
  have e1 := hagree _ hip
  dsimp only [lmp_render_chan]
  by_cases h : c.pos >>> 12 < c.len >>> 12
  · have e2 : byteAt m1 (c.sample + c.pos >>> 12 + 1)
        = byteAt m2 (c.sample + c.pos >>> 12 + 1) := by
      rw [Nat.add_assoc]
      exact hagree _ (by omega)
    rw [if_pos h, if_pos h, e1, e2]
  · rw [if_neg h, if_neg h, e1]

/-- A 3-byte one-shot voice a little into its sample. -/
def c5chanW : mpschan :=
  { initChan with
      on_ := true, vol := 64, pos := 4096 + 5, len := 3 * 4096 }

/-- A blob that differs from `zeroMem` only at offset 10 (past the
3-byte sample window of `c5chanW`). -/
def c5memW : Mem := fun a => if a = 10 then 9 else 0

/-- Witness for C5 (amended): a 3-byte sample window; the two blobs
differ only at offset 10, past the window, and render identically. -/
theorem C5_amended_w :
    lmp_render_chan zeroMem c5chanW = lmp_render_chan c5memW c5chanW :=
  C5_amended zeroMem c5memW c5chanW (by decide)
    (by intro j hj
        have hj3 : j ≤ 3 := hj
        interval_cases j <;> rfl)

/-! ## C9 -/

/-- The mono fill loop emits exactly one sample per iteration. -/
theorem fillMono_length (m : Mem) :
    ∀ (n : Nat) (s : mps), ((fillMono m s n).2.1).length = n
  | 0, _ => rfl
  | n + 1, s => by
    simp only [fillMono, List.length_cons]
    rw [fillMono_length m n]

/-- The hard-stereo fill loop emits `n - i` samples when given enough
fuel and an even remaining count. -/
theorem fillSH_length (m : Mem) :
    ∀ (fuel : Nat) (s : mps) (i n : Nat), n ≤ i + 2 * fuel → (n - i) % 2 = 0 →
      ((fillSH m s fuel i n).2.1).length = n - i
  | 0, s, i, n, hf, _ => by
    simp only [fillSH, List.length_nil]
    omega
  | fuel + 1, s, i, n, hf, hp => by
    by_cases h : i < n
    · simp only [fillSH, if_pos h, List.length_cons]
      rw [fillSH_length m fuel _ (i + 2) n (by omega) (by omega)]
      omega
    · simp only [fillSH, if_neg h, List.length_nil]
      omega

/-- The soft-stereo fill loop emits `n - i` samples when given enough
fuel and an even remaining count. -/
theorem fillSS_length (m : Mem) :
    ∀ (fuel : Nat) (s : mps) (i n : Nat), n ≤ i + 2 * fuel → (n - i) % 2 = 0 →
      ((fillSS m s fuel i n).2.1).length = n - i
  | 0, s, i, n, hf, _ => by
    simp only [fillSS, List.length_nil]
    omega
  | fuel + 1, s, i, n, hf, hp => by
    by_cases h : i < n
    · simp only [fillSS, if_pos h, List.length_cons]
      rw [fillSS_length m fuel _ (i + 2) n (by omega) (by omega)]
      omega
    · simp only [fillSS, if_neg h, List.length_nil]
      omega

/-- Claim C9: `lmp_fill_buffer` has no error path — for every state
and mix mode (with an even sample count in the stereo modes, as the
interface requires) it emits exactly `sample_count` output samples and
returns the boolean continue flag, never an error result. -/
theorem C9_fill_len (m : Mem) (s : mps) (n : Nat) (mix : lmp_mix)
    (h : mix = lmp_mix.mono ∨ n % 2 = 0) :
    ((lmp_fill_buffer m s n mix).2.1).length = n := by
  cases mix with
  | mono =>
    show ((lmp_fill_buffer_mono m s n).2.1).length = n
    simp only [lmp_fill_buffer_mono]
    exact fillMono_length m n s
  | stereo_hard =>
    show ((lmp_fill_buffer_stereo_hard m s n).2.1).length = n
    simp only [lmp_fill_buffer_stereo_hard]
    have hp : n % 2 = 0 := by
      rcases h with h | h
      · exact absurd h (by simp)
      · exact h
    have := fillSH_length m n s 0 n (by omega) (by omega)
    simpa using this
  | stereo_soft =>
    show ((lmp_fill_buffer_stereo_soft m s n).2.1).length = n
    simp only [lmp_fill_buffer_stereo_soft]
    have hp : n % 2 = 0 := by
      rcases h with h | h
      · exact absurd h (by simp)
      · exact h
    have := fillSS_length m n s 0 n (by omega) (by omega)
    simpa using this

/-- Witness for C9: a hard-stereo call of 2 samples on the freshly
initialised all-zero module emits exactly 2 samples. -/
theorem C9_fill_len_w :
    ((lmp_fill_buffer zeroMem (lmp_init zeroMem).1 2 lmp_mix.stereo_hard).2.1).length = 2 :=
  C9_fill_len zeroMem (lmp_init zeroMem).1 2 lmp_mix.stereo_hard (Or.inr (by decide))

/-! ## Facts about silent rendering and fill-loop composition -/

/-- When all four voices are off, rendering a frame is the identity on
the state and emits four zero channel samples. -/
theorem render_samples_off (m : Mem) (s : mps)
    (h : ∀ j, (s.cs j).on_ = false) :
    lmp_render_samples m s = (s, (0, 0, 0, 0)) := by
  simp only [lmp_render_samples, lmp_render_one, h 0, h 1, h 2, h 3,
    Bool.false_eq_true, if_false]

/-- A fill-loop run that stays strictly inside one tick period on a
state with all voices off only counts down `sample_counter` and emits
zeros. -/
theorem fillMono_silent (m : Mem) :
    ∀ (k : Nat) (s : mps), (∀ j, (s.cs j).on_ = false) →
      k < s.sample_counter →
      fillMono m s k = ({ s with sample_counter := s.sample_counter - k },
        List.replicate k 0, false)
  | 0, s, _, _ => by simp [fillMono]
  | k + 1, s, hoff, hk => by
    have hd : dec32 s.sample_counter = s.sample_counter - 1 := by
      unfold dec32
      rw [if_neg (by omega)]
    have hnz : ¬(s.sample_counter - 1 = 0) := by omega
    have hz : toInt16 (Int.tdiv (0 + 0 + 0 + 0) 4) = 0 := by decide
    simp only [fillMono, render_samples_off m s hoff, lmp_check_for_tick, hd,
      if_neg hnz]
    rw [fillMono_silent m k { s with sample_counter := s.sample_counter - 1 }
      hoff (by dsimp only; omega)]
    have harith : s.sample_counter - 1 - k = s.sample_counter - (k + 1) := by
      omega
    simp only [List.replicate_succ, hz, Bool.false_or, Prod.mk.injEq, harith,
      Nat.sub_sub]

/-- The fill loop splits over a sum of sample counts: the second half
runs from the first half's final state, the samples concatenate and
the done flags OR together. -/
theorem fillMono_add (m : Mem) :
    ∀ (a b : Nat) (s : mps),
      fillMono m s (a + b) =
        ((fillMono m (fillMono m s a).1 b).1,
         (fillMono m s a).2.1 ++ (fillMono m (fillMono m s a).1 b).2.1,
         (fillMono m s a).2.2 || (fillMono m (fillMono m s a).1 b).2.2)
  | 0, b, s => by simp [fillMono]
  | a + 1, b, s => by
    rw [show a + 1 + b = (a + b) + 1 by omega]
    simp only [fillMono]
    rw [fillMono_add m a b]
    simp [Bool.or_assoc]

/-! ## C10 -/

/-- Claim C10: immediately after `lmp_init`, for every module: all
four channels are off; the first 882 (`samples_per_tick` at the
default tempo 125 and rate 44100) mono output samples are exactly
zero; and through the first 881 output frames the sequencer has not
run at all (the state differs from the init state only in
`sample_counter`), so the first row is processed no earlier than the
882nd frame. -/
theorem C10_silent_start (m : Mem) :
    (∀ j, ((lmp_init m).1.cs j).on_ = false) ∧
    (lmp_fill_buffer_mono m (lmp_init m).1 882).2.1 = List.replicate 882 0 ∧
    (∀ k, k ≤ 881 →
      (fillMono m (lmp_init m).1 k).1 =
        { (lmp_init m).1 with sample_counter := 882 - k }) := by
  have hoff : ∀ j, ((lmp_init m).1.cs j).on_ = false := fun _ => rfl
  have hsc : (lmp_init m).1.sample_counter = 882 := rfl
  refine ⟨hoff, ?_, ?_⟩
  · show (fillMono m (lmp_init m).1 882).2.1 = _
    rw [show (882 : Nat) = 881 + 1 by omega, fillMono_add,
      fillMono_silent m 881 (lmp_init m).1 hoff (by omega)]
    have h1 : (fillMono m { (lmp_init m).1 with sample_counter := 882 - 881 } 1).2.1
        = [0] := by
      have hoff1 : ∀ j,
          (({ (lmp_init m).1 with sample_counter := 882 - 881 } : mps).cs j).on_
            = false := fun _ => rfl
      show (fillMono m _ (0 + 1)).2.1 = _
      simp only [fillMono, render_samples_off m _ hoff1]
      decide
    simp only [hsc, h1]
    rw [← List.replicate_succ' 881 (0 : Int)]
  · intro k hk
    rw [fillMono_silent m k (lmp_init m).1 hoff (by omega), hsc]

/-- Witness for C10 at the all-zero module, three frames in: the state
is the init state with `sample_counter` down to 879. -/
theorem C10_silent_start_w :
    (fillMono zeroMem (lmp_init zeroMem).1 3).1 =
      { (lmp_init zeroMem).1 with sample_counter := 882 - 3 } :=
  (C10_silent_start zeroMem).2.2 3 (by decide)

/-! ## C2 -/

/-- A 15-instrument module (no `M.K.` magic), sequence length 1, whose
pattern 0 row 0 channel 0 carries effect 11 (position jump) with
parameter 5: the first processed row immediately jumps off the end of
the sequence. -/
def testMod2 : Mem := fun a =>
  if a = 0x1d6 then 1 else if a = 0x25a then 0x0b else if a = 0x25b then 5 else 0

/-- `testMod2` loaded and set to non-looping
(`lmp_set_option(LMP_OPT_LOOP, 0)`). -/
def c2s0 : mps := lmp_set_option (lmp_init testMod2).1 0 0

/-- Claim C2 counterexample: with looping disabled, the first
`fill_buffer` call (882 samples, covering the first row tick, which
jumps off the sequence end) returns false — but the very next call
returns true again: the "done" result is a per-call local, and the
tick that reported it also reset `pos` to 0, so playback restarts
rather than latching the terminal state (no `set_position` call
intervened). -/
theorem C2_cex :
    (lmp_fill_buffer_mono testMod2 c2s0 882).2.2 = false ∧
    (lmp_fill_buffer_mono testMod2
        (lmp_fill_buffer_mono testMod2 c2s0 882).1 1).2.2 = true := by
  have hbm : ∀ (m : Mem) (s : mps) (n : Nat),
      lmp_fill_buffer_mono m s n =
        ((fillMono m s n).1, (fillMono m s n).2.1, !(fillMono m s n).2.2) :=
    fun _ _ _ => rfl
  have hoff : ∀ j, (c2s0.cs j).on_ = false := fun _ => rfl
  have hsc : c2s0.sample_counter = 882 := rfl
  have h881 := fillMono_silent testMod2 881 c2s0 hoff (by omega)
  constructor
  · rw [hbm, show (882 : Nat) = 881 + 1 by omega, fillMono_add, h881]
    decide
  · rw [hbm, hbm, show (882 : Nat) = 881 + 1 by omega, fillMono_add, h881]
    decide

/-- Claim C2 (amended): `lmp_tick` reports done only with looping
disabled, and the same tick resets `pos` to 0, so the engine restarts
from the sequence start; the done flag is not persistent state and a
later `fill_buffer` call returns false again only if the song runs off
its end again within that call. -/
theorem C2_amended (m : Mem) (s : mps) (h : (lmp_tick m s).2 = true) :
    (lmp_tick m s).1.pos = 0 ∧ (lmp_tick m s).1.song_loop = false := by
  unfold lmp_tick at h ⊢
  by_cases ht : 1 < s.tick_counter
  · rw [if_pos ht] at h
    exact absurd h (by simp)
  · rw [if_neg ht] at h ⊢
    by_cases he : (lmp_tick_row_state m s).length ≤ (lmp_tick_row_state m s).pos
    · rw [if_pos he] at h ⊢
      refine ⟨rfl, ?_⟩
      simp only [Bool.not_eq_true'] at h
      exact h
    · rw [if_neg he] at h
      exact absurd h (by simp)

/-- A non-looping state whose sequence length is 0: the very next row
tick runs off the end. -/
def c2sW : mps := { (lmp_init zeroMem).1 with length := 0, song_loop := false }

/-- Witness for C2 (amended) at a concrete done-reporting tick. -/
theorem C2_amended_w :
    (lmp_tick zeroMem c2sW).1.pos = 0 ∧ (lmp_tick zeroMem c2sW).1.song_loop = false :=
  C2_amended zeroMem c2sW (by decide)

/-! ## C3 -/

/-- A module whose instrument headers are valid: every volume byte
(offset 25 of each 30-byte record starting at 0x14) is at most 64. -/
def ValidVolumes (m : Mem) : Prop :=
  ∀ i < 31, byteAt m (0x14 + i * 30 + 25) ≤ 64

/-- The volume invariant: every channel volume and every loaded
instrument default volume is at most 64. -/
def VolInv (s : mps) : Prop :=
  (∀ j, (s.cs j).vol ≤ 64) ∧ (∀ i, (instAt s.inst i).default_volume ≤ 64)

/-- A `uint8_t` load is below 256. -/
theorem byteAt_lt (m : Mem) (a : Nat) : byteAt m a < 256 :=
  Nat.mod_lt _ (by norm_num)

/-- The masked default volume is bounded by 64 whenever the header's
volume byte is. -/
theorem dv_le (m : Mem) (a : Nat) (h : byteAt m (a + 1) ≤ 64) :
    0x7f &&& be16 m a ≤ 64 := by
  have h1 := byteAt_lt m a
  rw [Nat.and_comm, show (0x7f : Nat) = 2 ^ 7 - 1 from rfl,
    Nat.and_pow_two_sub_one_eq_mod]
  unfold be16
  omega

/-- Indexing a list of bounded-volume instruments (with the zero
stand-in out of range) stays bounded. -/
theorem instAt_dv :
    ∀ (l : List mpsamp), (∀ x ∈ l, x.default_volume ≤ 64) →
      ∀ i, (instAt l i).default_volume ≤ 64
  | [], _, i => by
    have e : instAt ([] : List mpsamp) i = dfltSamp := by cases i <;> rfl
    rw [e]
    decide
  | a :: l, h, 0 => h a (by simp)
  | a :: l, h, i + 1 => by
    have := instAt_dv l (fun x hx => h x (by simp [hx])) i
    simpa [instAt, List.getD] using this

/-- Every instrument loaded by the directory loop of a valid module
has default volume at most 64. -/
theorem build_insts_dv (m : Mem) (hv : ValidVolumes m) :
    ∀ (count i last : Nat), i + count ≤ 31 →
      ∀ x ∈ lmp_build_insts m 0x14 i last count, x.default_volume ≤ 64
  | 0, i, last, _, x, hx => by simp [lmp_build_insts] at hx
  | count + 1, i, last, hle, x, hx => by
    simp only [lmp_build_insts, List.mem_cons] at hx
    rcases hx with rfl | hx
    · show 0x7f &&& be16 m (0x14 + i * 30 + 24) ≤ 64
      refine dv_le m _ ?_
      rw [show 0x14 + i * 30 + 24 + 1 = 0x14 + i * 30 + 25 by omega]
      exact hv i (by omega)
    · exact build_insts_dv m hv count (i + 1) _ (by omega) x hx

/-- `lmp_init` of a valid module satisfies the volume invariant. -/
theorem init_VolInv (m : Mem) (hv : ValidVolumes m) : VolInv (lmp_init m).1 := by
  constructor
  · intro j
    show initChan.vol ≤ 64
    decide
  · intro i
    refine instAt_dv _ ?_ i
    intro x hx
    exact build_insts_dv m hv (if lmp_is31 m then 31 else 15) 0 _
      (by split <;> omega) x hx

/-- The invariant only looks at `cs` and `inst`. -/
theorem VolInv_mk {s s' : mps} (h : VolInv s) (hcs : s'.cs = s.cs)
    (hin : s'.inst = s.inst) : VolInv s' :=
  ⟨fun j => by rw [hcs]; exact h.1 j, fun i => by rw [hin]; exact h.2 i⟩

/-- The invariant is untouched by updates to any fields other than
`cs` and `inst` (stated over an explicit record so that it unifies
with any such update). -/
theorem VolInv_any {t : mps} (h : VolInv t) {a1 a2 a3 a4 a5 a6 a7 a8 a9 a10 a11 : Nat}
    {b1 b2 b3 : Bool} :
    VolInv { instruments := a1, sequence := a2, length := a3, patterns := a4,
             inst := t.inst, pos := a5, pos_pattern := a6, speed := a7,
             tick_counter := a8, tempo := a9, thirtyone := b1, song_loop := b2,
             support_tempo := b3, cs := t.cs, sample_counter := a10,
             samples_per_tick := a11 } :=
  VolInv_mk h rfl rfl

/-- Writing a bounded-volume channel preserves the invariant. -/
theorem VolInv_updCs {s : mps} {chan : Fin 4} {c : mpschan} (h : VolInv s)
    (hc : c.vol ≤ 64) : VolInv (updCs s chan c) := by
  refine ⟨fun j => ?_, h.2⟩
  show (if j = chan then c else s.cs j).vol ≤ 64
  split
  · exact hc
  · exact h.1 j

/-- `lmp_process_command` preserves the volume invariant: the volume
writes of effects 10 and 12 are clamped to `[0, 64]` and no other
command touches a volume. -/
theorem VolInv_pc (s : mps) (chan : Fin 4) (command val : Nat)
    (h : VolInv s) : VolInv (lmp_process_command s chan command val) := by
  unfold lmp_process_command
  split
  · exact VolInv_updCs h (h.1 chan)
  · exact VolInv_updCs h (h.1 chan)
  · refine VolInv_updCs h ?_
    dsimp only
    split_ifs <;> omega
  · dsimp only
    split
    · exact VolInv_any h
    · exact VolInv_any h
  · refine VolInv_updCs h ?_
    dsimp only
    split_ifs <;> omega
  · dsimp only
    split
    · exact VolInv_any h
    · exact VolInv_any h
  · dsimp only
    split
    · split
      · exact VolInv_any h
      · exact VolInv_any h
    · split
      · exact VolInv_any h
      · exact VolInv_any h
  · exact h

/-- One channel of row processing preserves the volume invariant: a
new note either keeps the channel volume or installs an instrument's
(bounded) default volume. -/
theorem VolInv_tick_chan (m : Mem) (frame : Nat) (s : mps) (chan : Fin 4)
    (h : VolInv s) : VolInv (lmp_tick_chan m frame s chan) := by
  unfold lmp_tick_chan
  dsimp only
  apply VolInv_pc
  split
  · split
    · refine VolInv_updCs (VolInv_updCs h (h.1 chan)) ?_
      split
      · exact h.2 _
      · exact h.1 chan
    · exact VolInv_updCs h (h.1 chan)
  · split
    · refine VolInv_updCs (VolInv_updCs h (h.1 chan)) ?_
      split
      · exact h.2 _
      · exact h.1 chan
    · exact VolInv_updCs h (h.1 chan)

/-- Inter-row portamento does not touch the channel volume. -/
theorem inter_chan_vol (c : mpschan) : (lmp_inter_chan c).vol = c.vol := by
  unfold lmp_inter_chan
  split
  · rfl
  · rfl

/-- Row processing of all four channels preserves the invariant. -/
theorem VolInv_foldl (m : Mem) (frame : Nat) :
    ∀ (l : List (Fin 4)) (t : mps), VolInv t →
      VolInv (l.foldl (fun acc ch => lmp_tick_chan m frame acc ch) t)
  | [], _, h => h
  | ch :: l, t, h =>
    VolInv_foldl m frame l _ (VolInv_tick_chan m frame t ch h)

/-- The whole row step preserves the invariant. -/
theorem VolInv_row_state (m : Mem) (s : mps) (h : VolInv s) :
    VolInv (lmp_tick_row_state m s) := by
  unfold lmp_tick_row_state
  dsimp only
  split
  · exact VolInv_any (VolInv_foldl m _ chanList _ (VolInv_any h))
  · exact VolInv_foldl m _ chanList _ (VolInv_any h)

/-- A sequencer tick preserves the invariant. -/
theorem VolInv_tick (m : Mem) (s : mps) (h : VolInv s) :
    VolInv (lmp_tick m s).1 := by
  unfold lmp_tick
  split
  · refine ⟨fun j => ?_, h.2⟩
    show (lmp_inter_chan (s.cs j)).vol ≤ 64
    rw [inter_chan_vol]
    exact h.1 j
  · split
    · exact VolInv_any (VolInv_row_state m s h)
    · exact VolInv_row_state m s h

/-- The tick clock preserves the invariant. -/
theorem VolInv_check (m : Mem) (s : mps) (h : VolInv s) :
    VolInv (lmp_check_for_tick m s).1 := by
  unfold lmp_check_for_tick
  dsimp only
  split
  · exact VolInv_tick m _ (VolInv_any h)
  · exact VolInv_any h

/-- The DSP step leaves the channel volume unchanged. -/
theorem render_chan_vol (m : Mem) (c : mpschan) :
    ((lmp_render_chan m c).1).vol = c.vol := rfl

/-- Rendering one channel preserves the invariant. -/
theorem VolInv_render_one (m : Mem) (s : mps) (chan : Fin 4) (h : VolInv s) :
    VolInv (lmp_render_one m s chan).1 := by
  unfold lmp_render_one
  split
  · exact VolInv_updCs h (by rw [render_chan_vol]; exact h.1 chan)
  · exact h

/-- Rendering a frame preserves the invariant. -/
theorem VolInv_render (m : Mem) (s : mps) (h : VolInv s) :
    VolInv (lmp_render_samples m s).1 :=
  VolInv_render_one m _ 3 (VolInv_render_one m _ 2
    (VolInv_render_one m _ 1 (VolInv_render_one m s 0 h)))

/-- The mono fill loop preserves the invariant. -/
theorem VolInv_fillMono (m : Mem) :
    ∀ (n : Nat) (s : mps), VolInv s → VolInv (fillMono m s n).1
  | 0, _, h => h
  | n + 1, s, h =>
    VolInv_fillMono m n _ (VolInv_check m _ (VolInv_render m s h))

/-- The hard-stereo fill loop preserves the invariant. -/
theorem VolInv_fillSH (m : Mem) :
    ∀ (fuel : Nat) (s : mps) (i n : Nat), VolInv s →
      VolInv (fillSH m s fuel i n).1
  | 0, _, _, _, h => h
  | fuel + 1, s, i, n, h => by
    unfold fillSH
    split
    · exact VolInv_fillSH m fuel _ (i + 2) n
        (VolInv_check m _ (VolInv_render m s h))
    · exact h

/-- The soft-stereo fill loop preserves the invariant. -/
theorem VolInv_fillSS (m : Mem) :
    ∀ (fuel : Nat) (s : mps) (i n : Nat), VolInv s →
      VolInv (fillSS m s fuel i n).1
  | 0, _, _, _, h => h
  | fuel + 1, s, i, n, h => by
    unfold fillSS
    split
    · exact VolInv_fillSS m fuel _ (i + 2) n
        (VolInv_check m _ (VolInv_render m s h))
    · exact h

/-- Every `lmp_fill_buffer` call preserves the invariant. -/
theorem VolInv_fill (m : Mem) (s : mps) (n : Nat) (mix : lmp_mix)
    (h : VolInv s) : VolInv (lmp_fill_buffer m s n mix).1 := by
  cases mix with
  | mono => exact VolInv_fillMono m n s h
  | stereo_hard => exact VolInv_fillSH m n s 0 n h
  | stereo_soft => exact VolInv_fillSS m n s 0 n h

/-- Any stream of `lmp_fill_buffer` calls preserves the invariant. -/
theorem VolInv_run (m : Mem) :
    ∀ (calls : List (lmp_mix × Nat)) (s : mps), VolInv s →
      VolInv (lmp_run m s calls)
  | [], _, h => h
  | (mode, n) :: rest, s, h =>
    VolInv_run m rest _ (VolInv_fill m s n mode h)

/-- Claim C3: for every module with valid instrument volume bytes and
every sequence of `fill_buffer` calls after `lmp_init`, each channel's
`vol` lies in `[0, 64]` (it is a `Nat`, so only the upper bound is
substantive); and the `default_volume` installed on a new note (the
header volume halfword masked to its low 7 bits) never exceeds 64. -/
theorem C3_vol_invariant (m : Mem) (hv : ValidVolumes m)
    (calls : List (lmp_mix × Nat)) (chan : Fin 4) :
    ((lmp_run m (lmp_init m).1 calls).cs chan).vol ≤ 64 ∧
    ∀ i, (instAt (lmp_init m).1.inst i).default_volume ≤ 64 :=
  ⟨(VolInv_run m calls _ (init_VolInv m hv)).1 chan, (init_VolInv m hv).2⟩

/-- Witness for C3: the all-zero module is valid and one mono
fill_buffer call of one sample keeps channel 0's volume within 64. -/
theorem C3_vol_invariant_w :
    ValidVolumes zeroMem ∧
    ((lmp_run zeroMem (lmp_init zeroMem).1 [(lmp_mix.mono, 1)]).cs 0).vol ≤ 64 :=
  ⟨by unfold ValidVolumes; decide,
   (C3_vol_invariant zeroMem (by unfold ValidVolumes; decide)
     [(lmp_mix.mono, 1)] 0).1⟩

end LMP
